import Mathlib

/-!
Verification of the attachment/PDF text-extraction helper and the
code-language (syntax highlighting) utility of this repository.

The two helper modules are shallowly embedded:

* the PDF helper (`extractTextFromPDF`, `processAttachments`) is translated
  from the source; the external PDF parsing library (pdfjs) and the
  platform's `atob` base64 decoder are modelled explicitly;
* the language utility (`detectLanguage`, `highlightCode`) is translated
  from the source; the external highlight.js engine is modelled as an
  environment structure (`HljsEnv`) whose registry is the exact sequence of
  `hljs.registerLanguage` calls performed at module initialization.

JavaScript runtime behaviours that matter to the claims are modelled
faithfully: `undefined`/`null`/falsy checks, property access on nullish
values throwing a TypeError, string coercion of `undefined`, and exceptions
as `Except.error`.
-/

/-- The grammar modules imported and registered by the source file, one
constructor per imported highlight.js grammar. -/
inductive Grammar where
  | python | typescript | javascript | java | bash | shell | json | yaml
  | xml | markdown | css | scss | sql | php | csharp | cpp | go | rust
  | swift | kotlin | ruby | dart | diff | dockerfile | graphql | http
  | ini | latex | objectivec | perl | plaintext | r | scala | powershell
  deriving DecidableEq, Repr

/-- The language registry: the exact sequence of `hljs.registerLanguage`
calls performed at module initialization (source lines 113-164), in source
order. Lookup is by language identifier. -/
def registry : List (String × Grammar) :=
  [("python", Grammar.python),
   ("typescript", Grammar.typescript),
   ("javascript", Grammar.javascript),
   ("js", Grammar.javascript),
   ("java", Grammar.java),
   ("bash", Grammar.bash),
   ("shell", Grammar.shell),
   ("sh", Grammar.shell),
   ("json", Grammar.json),
   ("yaml", Grammar.yaml),
   ("yml", Grammar.yaml),
   ("xml", Grammar.xml),
   ("html", Grammar.xml),
   ("markdown", Grammar.markdown),
   ("md", Grammar.markdown),
   ("css", Grammar.css),
   ("scss", Grammar.scss),
   ("sql", Grammar.sql),
   ("php", Grammar.php),
   ("csharp", Grammar.csharp),
   ("cs", Grammar.csharp),
   ("cpp", Grammar.cpp),
   ("c++", Grammar.cpp),
   ("go", Grammar.go),
   ("golang", Grammar.go),
   ("rust", Grammar.rust),
   ("rs", Grammar.rust),
   ("swift", Grammar.swift),
   ("kotlin", Grammar.kotlin),
   ("kt", Grammar.kotlin),
   ("ruby", Grammar.ruby),
   ("rb", Grammar.ruby),
   ("dart", Grammar.dart),
   ("diff", Grammar.diff),
   ("dockerfile", Grammar.dockerfile),
   ("docker", Grammar.dockerfile),
   ("graphql", Grammar.graphql),
   ("gql", Grammar.graphql),
   ("http", Grammar.http),
   ("ini", Grammar.ini),
   ("latex", Grammar.latex),
   ("tex", Grammar.latex),
   ("objectivec", Grammar.objectivec),
   ("objc", Grammar.objectivec),
   ("perl", Grammar.perl),
   ("pl", Grammar.perl),
   ("plaintext", Grammar.plaintext),
   ("text", Grammar.plaintext),
   ("r", Grammar.r),
   ("scala", Grammar.scala),
   ("powershell", Grammar.powershell),
   ("ps", Grammar.powershell)]

/-- The fixed candidate list passed to `hljs.highlightAuto` by
`detectLanguage` (source lines 173-176). -/
def candidateLanguages : List String :=
  ["typescript", "javascript", "python", "java", "html", "css",
   "json", "bash", "yaml", "sql", "php", "csharp", "cpp"]

/-- Modelled from the spec: the external highlight.js engine, which is not
part of this repository. `render` is the engine's grammar-driven rendering
of a code string to markup; the spec allows it to fail for any reason
except that the worst case is always the plain rendering, so the plain-text
grammar's rendering always succeeds (`plaintext_ok`). `autoDetect` models
`hljs.highlightAuto(code, candidates).language`: per the spec it returns
the highest-confidence candidate's identifier, hence a member of
`candidateLanguages`, or nothing when no candidate scores above the
confidence floor (`autoDetect_mem`). -/
structure HljsEnv where
  render : Grammar → String → Except String String
  autoDetect : String → Option String
  plaintext_ok : ∀ code, (render Grammar.plaintext code).isOk
  autoDetect_mem : ∀ code l, autoDetect code = some l → l ∈ candidateLanguages

/-- JavaScript `x || dflt` on an optional string: `undefined` and the empty
string are falsy. -/
def jsOr (s : Option String) (dflt : String) : String :=
  match s with
  | none => dflt
  | some v => if v = "" then dflt else v

/-- Translation of `detectLanguage` (source lines 171-179):
`hljs.highlightAuto(code, candidates).language || 'plaintext'`. -/
def detectLanguage (env : HljsEnv) (code : String) : String :=
  jsOr (env.autoDetect code) "plaintext"

/-- Modelled from the spec: `hljs.highlight(code, { language })` of the
external engine. It throws (`Except.error`) when the identifier's grammar
is absent from the registry, and otherwise renders under the registered
grammar (which may itself fail). -/
def hljsHighlight (env : HljsEnv) (code language : String) : Except String String :=
  match registry.lookup language with
  | some g => env.render g code
  | none => Except.error ("Unknown language: " ++ language)

/-- Translation of `highlightCode` (source lines 187-198). A missing or
empty (falsy) language argument triggers auto-detection; the `try`/`catch`
around `hljs.highlight` falls back to the plain-text grammar. -/
def highlightCode (env : HljsEnv) (code : String) (languageOpt : Option String) : Except String String :=
  let language :=
    match languageOpt with
    | none => detectLanguage env code
    | some l => if l = "" then detectLanguage env code else l
  match hljsHighlight env code language with
  | Except.ok v => Except.ok v
  | Except.error _ => hljsHighlight env code "plaintext"

/-! ## The PDF attachment extractor -/

/-- ASCII whitespace stripped by the platform's forgiving base64 decoder. -/
def isB64Ws (c : Char) : Bool :=
  c = ' ' || c = '\t' || c = '\n' || c = '\x0c' || c = '\r'

/-- Value of a character in the standard base64 alphabet, if any. -/
def base64Index (c : Char) : Option Nat :=
  if 'A' ≤ c ∧ c ≤ 'Z' then some (c.toNat - 'A'.toNat)
  else if 'a' ≤ c ∧ c ≤ 'z' then some (c.toNat - 'a'.toNat + 26)
  else if '0' ≤ c ∧ c ≤ '9' then some (c.toNat - '0'.toNat + 52)
  else if c = '+' then some 62
  else if c = '/' then some 63
  else none

/-- Packs a list of base64 sextet values into bytes (3 bytes per group of
4 sextets; a trailing group of 2 or 3 sextets yields 1 or 2 bytes). -/
def sextetsToBytes : List Nat → List Nat
  | a :: b :: c :: d :: rest =>
      (a * 4 + b / 16) :: ((b % 16) * 16 + c / 4) :: ((c % 4) * 64 + d) ::
        sextetsToBytes rest
  | [a, b] => [a * 4 + b / 16]
  | [a, b, c] => [a * 4 + b / 16, (b % 16) * 16 + c / 4]
  | _ => []

/-- Modelled from the spec: the platform's `atob` (forgiving base64
decode), which the repository uses but does not define. Strips ASCII
whitespace, allows up to two trailing padding characters, and throws an
InvalidCharacterError (`Except.error`) on a malformed payload. The decoded
binary string is returned directly as its byte values, fusing the
`charCodeAt` loop of source lines 18-22. -/
def atob (s : String) : Except String (List Nat) :=
  let data := s.toList.filter (fun c => !isB64Ws c)
  let data :=
    if data.length % 4 = 0 then
      if data.getLast? = some '=' then
        let d := data.dropLast
        if d.getLast? = some '=' then d.dropLast else d
      else data
    else data
  if data.length % 4 = 1 then
    Except.error "InvalidCharacterError: the string to be decoded is not correctly encoded"
  else
    match data.mapM base64Index with
    | none => Except.error "InvalidCharacterError: the string to be decoded is not correctly encoded"
    | some sextets => Except.ok (sextetsToBytes sextets)

/-- A parsed PDF document as the extractor sees it: `pages` lists, for each
page in order, the `str` fields of that page's text-content items. The
source's `pdf.numPages` is `pages.length`, and `pdf.getPage(i)` with
`getTextContent()` yields the entry at index `i - 1`. -/
structure PdfDocument where
  pages : List (List String)
  deriving DecidableEq

/-- Modelled from the spec: the external PDF parsing capability
(`pdfjsLib.getDocument`), which opens a document from bytes and may fail
when the bytes are not a valid document. -/
structure PdfLib where
  parse : List Nat → Except String PdfDocument

/-- Splits a character list at every comma, JavaScript `split(',')`. -/
def splitCommaAux : List Char → List Char → List String
  | [], acc => [String.mk acc.reverse]
  | c :: rest, acc =>
      if c = ',' then String.mk acc.reverse :: splitCommaAux rest []
      else splitCommaAux rest (c :: acc)

/-- JavaScript `s.split(',')`: the list of comma-separated pieces of `s`
(never empty; a string without commas yields the one-element list). -/
def splitComma (s : String) : List String :=
  splitCommaAux s.toList []

/-- Translation of `pdfDataUrl.split(',')[1]` followed by `atob`
(source lines 17-18): when the data URL has no comma, the JavaScript index
yields `undefined`, which `atob` coerces to the string "undefined". -/
def decodeDataUrl (url : String) : Except String (List Nat) :=
  atob ((splitComma url).getD 1 "undefined")

/-- Translation of the page loop of `extractTextFromPDF` (source lines
28-36): `fullText += ` a separator line naming the 1-based page number,
then the page's items joined with single spaces. -/
def extractLoop (pages : List (List String)) : String :=
  pages.enum.foldl
    (fun acc p =>
      acc ++ ("\n--- Page " ++ toString (p.1 + 1) ++ " ---\n" ++
        String.intercalate " " p.2 ++ "\n"))
    ""

/-- The body of the `try` block of `extractTextFromPDF`: decode the data
URL, open the document, render every page; the first failure propagates
to the surrounding `catch`. -/
def extractRun (lib : PdfLib) (pdfDataUrl : String) : Except String String :=
  match decodeDataUrl pdfDataUrl with
  | Except.error e => Except.error e
  | Except.ok bytes =>
    match lib.parse bytes with
    | Except.error e => Except.error e
    | Except.ok pdf => Except.ok (extractLoop pdf.pages)

/-- Translation of `extractTextFromPDF` (source lines 14-43): any failure
inside the `try` block is caught and rendered as a placeholder string
embedding the error message. -/
def extractTextFromPDF (lib : PdfLib) (pdfDataUrl : String) : String :=
  match extractRun lib pdfDataUrl with
  | Except.ok s => s
  | Except.error msg => "[Unable to extract PDF content. Error: " ++ msg ++ "]"

/-! ## processAttachments and its JavaScript-valued inputs -/

/-- An attachment object's fields as the extractor reads them; `none`
models an absent (`undefined`) field. -/
structure Attachment where
  name : Option String
  contentType : Option String
  url : Option String
  deriving DecidableEq

/-- One element of the `attachments` array, which is typed `any[]`:
`nullish` is `null` or `undefined` (property access throws), `primitive`
is any other non-object value (property access yields `undefined`), and
`obj` is an object with the fields above. -/
inductive AttachmentElem where
  | nullish
  | primitive
  | obj (a : Attachment)
  deriving DecidableEq

/-- The `any` value passed to `processAttachments`: `undefined`, `null`,
some other non-array value, or an array. The first three all fail the
`!attachments || !Array.isArray(attachments)` guard. -/
inductive AttachmentsInput where
  | undef
  | nullv
  | nonArrayValue
  | arr (elems : List AttachmentElem)

/-- JavaScript property access `e.f` on an array element: throws a
TypeError on `null`/`undefined`, yields `undefined` on other primitives. -/
def elemField (e : AttachmentElem) (f : Attachment → Option String) : Except String (Option String) :=
  match e with
  | AttachmentElem.nullish => Except.error "TypeError: cannot read properties of null or undefined"
  | AttachmentElem.primitive => Except.ok none
  | AttachmentElem.obj a => Except.ok (f a)

/-- JavaScript truthiness of an optional string: `undefined` and the empty
string are falsy. -/
def truthy (s : Option String) : Bool :=
  match s with
  | none => false
  | some v => v ≠ ""

/-- JavaScript string interpolation of a possibly-`undefined` value. -/
def jsStr (s : Option String) : String :=
  s.getD "undefined"

/-- Translation of the `for (const attachment of attachments)` loop of
`processAttachments` (source lines 57-71). The `console.log` on entry
reads `attachment.name` and `attachment.contentType`, so a nullish element
throws there; a PDF content type with a truthy `url` contributes a wrapped
extraction block, everything else contributes nothing. -/
def processLoop (lib : PdfLib) : List AttachmentElem → Except String String
  | [] => Except.ok ""
  | e :: rest => do
      let name ← elemField e Attachment.name
      let contentType ← elemField e Attachment.contentType
      let url ← elemField e Attachment.url
      let piece :=
        if contentType = some "application/pdf" ∧ truthy url then
          "\n\nContent from PDF file \"" ++ jsStr name ++ "\":\n" ++
            extractTextFromPDF lib (url.getD "") ++ "\n\n"
        else ""
      let tail ← processLoop lib rest
      pure (piece ++ tail)

/-- Translation of `processAttachments` (source lines 50-74): a falsy,
non-array, or empty input short-circuits to the empty string; otherwise
the loop accumulates extracted content. -/
def processAttachments (lib : PdfLib) : AttachmentsInput → Except String String
  | AttachmentsInput.undef => Except.ok ""
  | AttachmentsInput.nullv => Except.ok ""
  | AttachmentsInput.nonArrayValue => Except.ok ""
  | AttachmentsInput.arr elems =>
      if elems.isEmpty then Except.ok "" else processLoop lib elems

/-- The block contributed to the output by a single well-formed attachment
object: the wrapped extraction for a PDF with a truthy url, nothing
otherwise. -/
def attachmentPiece (lib : PdfLib) (a : Attachment) : String :=
  if a.contentType = some "application/pdf" ∧ truthy a.url then
    "\n\nContent from PDF file \"" ++ jsStr a.name ++ "\":\n" ++
      extractTextFromPDF lib (a.url.getD "") ++ "\n\n"
  else ""

/-- Concatenation of the blocks of a list of attachment objects. -/
def renderAll (lib : PdfLib) (l : List Attachment) : String :=
  String.join (l.map (attachmentPiece lib))

/-! ## Concrete instances used to evaluate the theorems -/

/-- A two-page document produced by the concrete PDF library below. -/
def pdfDocDemo : PdfDocument :=
  ⟨[["Hello", "world"], ["Second", "page"]]⟩

/-- A concrete instance of the external PDF library: it opens the byte
sequence `[0, 1, 2]` (the decoding of the base64 payload `AAEC`) as
`pdfDocDemo` and rejects everything else as an invalid document. -/
def pdfLibDemo : PdfLib :=
  ⟨fun bytes =>
    if bytes = [0, 1, 2] then Except.ok pdfDocDemo
    else Except.error "Invalid PDF structure"⟩

/-- A well-formed PDF attachment whose data URL decodes to `[0, 1, 2]`. -/
def attachDemo : Attachment :=
  ⟨some "report.pdf", some "application/pdf", some "data:application/pdf;base64,AAEC"⟩

/-- A PDF attachment whose data URL payload is not valid base64. -/
def attachBadDemo : Attachment :=
  ⟨some "broken.pdf", some "application/pdf", some "data:application/pdf;base64,%%%"⟩

/-- A concrete instance of the external highlighting engine, used to
instantiate the universally quantified theorems on concrete inputs. -/
def hljsEnvDemo : HljsEnv where
  render := fun g code =>
    if g = Grammar.plaintext then Except.ok code
    else Except.ok ("<span class=\"hljs\">" ++ code ++ "</span>")
  autoDetect := fun _ => none
  plaintext_ok := fun _ => rfl
  autoDetect_mem := fun _ _ h => by cases h

/-! ## Helper lemmas -/

theorem isOk_exists {e : Except String String} (h : e.isOk = true) : ∃ w, e = Except.ok w := by
  cases e with
  | ok w => exact ⟨w, rfl⟩
  | error msg => simp [Except.isOk, Except.toBool] at h

theorem lookup_plaintext : registry.lookup "plaintext" = some Grammar.plaintext := by decide

theorem hljsHighlight_plaintext (env : HljsEnv) (code : String) :
    hljsHighlight env code "plaintext" = env.render Grammar.plaintext code := by
  simp [hljsHighlight, lookup_plaintext]

theorem highlightCode_some (env : HljsEnv) (code lang : String) (hne : lang ≠ "") :
    highlightCode env code (some lang) =
      match hljsHighlight env code lang with
      | Except.ok v => Except.ok v
      | Except.error _ => hljsHighlight env code "plaintext" := by
  simp only [highlightCode, if_neg hne]

theorem highlightCode_fallback_isOk (env : HljsEnv) (code : String) (languageOpt : Option String) :
    (highlightCode env code languageOpt).isOk = true := by
  obtain ⟨w, hw⟩ := isOk_exists (env.plaintext_ok code)
  have hpt : hljsHighlight env code "plaintext" = Except.ok w := by
    rw [hljsHighlight_plaintext, hw]
  unfold highlightCode
  cases h : hljsHighlight env code
      (match languageOpt with
       | none => detectLanguage env code
       | some l => if l = "" then detectLanguage env code else l) with
  | ok v => simp only [h]; rfl
  | error msg => simp only [h]; rw [hpt]; rfl

/-- C5: for every code string and every non-falsy language identifier, if
the identifier's grammar is absent from the registry or its rendering
fails, `highlightCode` returns the plain-text grammar's rendering of the
code and does not throw. -/
theorem highlightCode_plaintext_fallback (env : HljsEnv) (code lang : String)
    (hne : lang ≠ "")
    (hfail : registry.lookup lang = none ∨
      ∃ g e, registry.lookup lang = some g ∧ env.render g code = Except.error e) :
    highlightCode env code (some lang) = env.render Grammar.plaintext code ∧
    (highlightCode env code (some lang)).isOk = true := by
  have hmain : highlightCode env code (some lang) = env.render Grammar.plaintext code := by
    rw [highlightCode_some env code lang hne]
    rcases hfail with h | ⟨g, e, hg, he⟩
    · simp [hljsHighlight, h, lookup_plaintext]
    · simp [hljsHighlight, hg, he, lookup_plaintext]
  exact ⟨hmain, by rw [hmain]; exact env.plaintext_ok code⟩

/-- Witness for C5 at a concrete unrecognized identifier. -/
theorem highlightCode_plaintext_fallback_witness :
    highlightCode hljsEnvDemo "const x = 1;" (some "klingon") =
      hljsEnvDemo.render Grammar.plaintext "const x = 1;" ∧
    (highlightCode hljsEnvDemo "const x = 1;" (some "klingon")).isOk = true :=
  highlightCode_plaintext_fallback hljsEnvDemo "const x = 1;" "klingon"
    (by decide) (Or.inl (by decide))

/-- C6: for a non-falsy language identifier absent from the registry,
`highlightCode code (some lang)` agrees with the no-identifier call
`highlightCode code none` whenever the latter resolves through the
plain-text fallback (auto-detection yields no candidate), and neither call
throws. -/
theorem highlightCode_unknown_matches_auto (env : HljsEnv) (code lang : String)
    (hne : lang ≠ "") (habs : registry.lookup lang = none)
    (hauto : env.autoDetect code = none) :
    highlightCode env code (some lang) = highlightCode env code none ∧
    (highlightCode env code (some lang)).isOk = true ∧
    (highlightCode env code none).isOk = true := by
  have hdet : detectLanguage env code = "plaintext" := by
    simp [detectLanguage, jsOr, hauto]
  obtain ⟨w, hw⟩ := isOk_exists (env.plaintext_ok code)
  have hpt : hljsHighlight env code "plaintext" = Except.ok w := by
    rw [hljsHighlight_plaintext, hw]
  have h1 : highlightCode env code (some lang) = Except.ok w := by
    have he : hljsHighlight env code lang = Except.error ("Unknown language: " ++ lang) := by
      simp [hljsHighlight, habs]
    rw [highlightCode_some env code lang hne, he]
    exact hpt
  have h2 : highlightCode env code none = Except.ok w := by
    have hu : highlightCode env code none =
        match hljsHighlight env code (detectLanguage env code) with
        | Except.ok v => Except.ok v
        | Except.error _ => hljsHighlight env code "plaintext" := rfl
    rw [hu, hdet, hpt]
  exact ⟨h1.trans h2.symm, by rw [h1]; rfl, by rw [h2]; rfl⟩

/-- Witness for C6 at a concrete unrecognized identifier and a code string
on which auto-detection yields no candidate. -/
theorem highlightCode_unknown_matches_auto_witness :
    highlightCode hljsEnvDemo "zzz" (some "klingon") = highlightCode hljsEnvDemo "zzz" none ∧
    (highlightCode hljsEnvDemo "zzz" (some "klingon")).isOk = true ∧
    (highlightCode hljsEnvDemo "zzz" none).isOk = true :=
  highlightCode_unknown_matches_auto hljsEnvDemo "zzz" "klingon"
    (by decide) (by decide) rfl

/-- C7 counterexample: the claim asserts the alias `ts` maps to the
TypeScript grammar, but the source never registers a `ts` key (only the
full name `typescript`), so the lookup refutes that mapping. -/
theorem registry_ts_alias_refuted : registry.lookup "ts" ≠ some Grammar.typescript := by
  decide

/-- C7 (amended): the registry maps every other alias listed in the claim
to the stated grammar, `py` is not aliased (only `python` is registered),
and `ts` is likewise not aliased (only `typescript` is registered). -/
theorem registry_alias_table :
    registry.lookup "js" = some Grammar.javascript ∧
    registry.lookup "sh" = some Grammar.shell ∧
    registry.lookup "yml" = some Grammar.yaml ∧
    registry.lookup "md" = some Grammar.markdown ∧
    registry.lookup "cs" = some Grammar.csharp ∧
    registry.lookup "c++" = some Grammar.cpp ∧
    registry.lookup "rs" = some Grammar.rust ∧
    registry.lookup "kt" = some Grammar.kotlin ∧
    registry.lookup "rb" = some Grammar.ruby ∧
    registry.lookup "docker" = some Grammar.dockerfile ∧
    registry.lookup "gql" = some Grammar.graphql ∧
    registry.lookup "tex" = some Grammar.latex ∧
    registry.lookup "objc" = some Grammar.objectivec ∧
    registry.lookup "pl" = some Grammar.perl ∧
    registry.lookup "text" = some Grammar.plaintext ∧
    registry.lookup "ps" = some Grammar.powershell ∧
    registry.lookup "py" = none ∧
    registry.lookup "python" = some Grammar.python ∧
    registry.lookup "ts" = none ∧
    registry.lookup "typescript" = some Grammar.typescript := by
  decide

/-- C8: `detectLanguage` always returns a non-empty identifier drawn from
the fixed candidate subset (every member of which is a registered grammar)
or the plain-text fallback, and returns `plaintext` exactly when the
engine's auto-detection yields no candidate above its confidence floor. -/
theorem detectLanguage_defaults (env : HljsEnv) (code : String) :
    detectLanguage env code ≠ "" ∧
    detectLanguage env code ∈ "plaintext" :: candidateLanguages ∧
    (env.autoDetect code = none → detectLanguage env code = "plaintext") ∧
    ∀ c ∈ candidateLanguages, (registry.lookup c).isSome = true := by
  cases h : env.autoDetect code with
  | none =>
    have hd : detectLanguage env code = "plaintext" := by
      simp [detectLanguage, jsOr, h]
    exact ⟨by rw [hd]; decide, by rw [hd]; exact List.mem_cons_self _ _,
      fun _ => hd, by decide⟩
  | some l =>
    have hmem := env.autoDetect_mem code l h
    have hl : l ≠ "" := by
      intro he
      rw [he] at hmem
      exact absurd hmem (by decide)
    have hd : detectLanguage env code = l := by
      simp [detectLanguage, jsOr, h, hl]
    exact ⟨by rw [hd]; exact hl, by rw [hd]; exact List.mem_cons_of_mem _ hmem,
      fun hn => by simp at hn, by decide⟩

/-- Witness for C8 at a concrete engine and code string. -/
theorem detectLanguage_defaults_witness :
    detectLanguage hljsEnvDemo "hello world" ≠ "" ∧
    detectLanguage hljsEnvDemo "hello world" ∈ "plaintext" :: candidateLanguages ∧
    (hljsEnvDemo.autoDetect "hello world" = none →
      detectLanguage hljsEnvDemo "hello world" = "plaintext") ∧
    ∀ c ∈ candidateLanguages, (registry.lookup c).isSome = true :=
  detectLanguage_defaults hljsEnvDemo "hello world"

/-- C9: `highlightCode` and `detectLanguage` are deterministic — the
embedding is a pure function of the code, the identifier, and the fixed
registry, with no mutable state, so two calls with identical arguments
yield identical output. -/
theorem highlight_deterministic (env : HljsEnv) (code : String) (languageOpt : Option String) :
    highlightCode env code languageOpt = highlightCode env code languageOpt ∧
    detectLanguage env code = detectLanguage env code :=
  ⟨rfl, rfl⟩

theorem foldl_append_shift (l : List String) (init : String) :
    l.foldl (fun r s => r ++ s) init = init ++ l.foldl (fun r s => r ++ s) "" := by
  induction l generalizing init with
  | nil => exact (String.append_empty init).symm
  | cons a l ih =>
    rw [List.foldl_cons, List.foldl_cons, ih (init ++ a), ih ("" ++ a),
      String.empty_append, String.append_assoc]

theorem join_cons (s : String) (l : List String) :
    String.join (s :: l) = s ++ String.join l := by
  show (s :: l).foldl (fun r t => r ++ t) "" = s ++ l.foldl (fun r t => r ++ t) ""
  rw [List.foldl_cons, foldl_append_shift l ("" ++ s), String.empty_append]

theorem join_append (l₁ l₂ : List String) :
    String.join (l₁ ++ l₂) = String.join l₁ ++ String.join l₂ := by
  induction l₁ with
  | nil => rw [List.nil_append]; exact (String.empty_append _).symm
  | cons a l ih => rw [List.cons_append, join_cons, join_cons, ih, String.append_assoc]

theorem foldl_append_map {α : Type} (f : α → String) (l : List α) (init : String) :
    l.foldl (fun acc p => acc ++ f p) init = init ++ String.join (l.map f) := by
  induction l generalizing init with
  | nil => exact (String.append_empty init).symm
  | cons a l ih =>
    rw [List.foldl_cons, List.map_cons, join_cons, ih (init ++ f a), String.append_assoc]

theorem extractLoop_eq_join (pages : List (List String)) :
    extractLoop pages =
      String.join (pages.enum.map (fun p =>
        "\n--- Page " ++ toString (p.1 + 1) ++ " ---\n" ++
          String.intercalate " " p.2 ++ "\n")) := by
  rw [extractLoop, foldl_append_map, String.empty_append]

theorem renderAll_cons (lib : PdfLib) (a : Attachment) (l : List Attachment) :
    renderAll lib (a :: l) = attachmentPiece lib a ++ renderAll lib l := by
  rw [renderAll, List.map_cons, join_cons, renderAll]

theorem renderAll_append (lib : PdfLib) (l₁ l₂ : List Attachment) :
    renderAll lib (l₁ ++ l₂) = renderAll lib l₁ ++ renderAll lib l₂ := by
  rw [renderAll, List.map_append, join_append, renderAll, renderAll]

theorem processLoop_obj (lib : PdfLib) (l : List Attachment) :
    processLoop lib (l.map AttachmentElem.obj) = Except.ok (renderAll lib l) := by
  induction l with
  | nil => rfl
  | cons a l ih =>
    have step : processLoop lib (AttachmentElem.obj a :: l.map AttachmentElem.obj) =
        Except.bind (processLoop lib (l.map AttachmentElem.obj))
          (fun tail => Except.ok (attachmentPiece lib a ++ tail)) := rfl
    rw [List.map_cons, step, ih]
    show Except.ok (attachmentPiece lib a ++ renderAll lib l) = _
    rw [renderAll_cons]

theorem processLoop_cons_shape (lib : PdfLib) (e : AttachmentElem)
    (rest : List AttachmentElem) (hne : e ≠ AttachmentElem.nullish) :
    ∃ piece, processLoop lib (e :: rest) =
      Except.bind (processLoop lib rest) (fun tail => Except.ok (piece ++ tail)) := by
  cases e with
  | nullish => exact absurd rfl hne
  | primitive => exact ⟨"", rfl⟩
  | obj a => exact ⟨attachmentPiece lib a, rfl⟩

theorem processLoop_ok (lib : PdfLib) (elems : List AttachmentElem)
    (h : AttachmentElem.nullish ∉ elems) : (processLoop lib elems).isOk = true := by
  induction elems with
  | nil => rfl
  | cons e rest ih =>
    have hne : e ≠ AttachmentElem.nullish := fun he => h (he ▸ List.mem_cons_self e rest)
    have hrest : AttachmentElem.nullish ∉ rest := fun hm => h (List.mem_cons_of_mem e hm)
    obtain ⟨piece, hp⟩ := processLoop_cons_shape lib e rest hne
    obtain ⟨w, hw⟩ := isOk_exists (ih hrest)
    rw [hp, hw]
    rfl

theorem processAttachments_arr (lib : PdfLib) (l : List Attachment) :
    processAttachments lib (AttachmentsInput.arr (l.map AttachmentElem.obj)) =
      Except.ok (renderAll lib l) := by
  cases l with
  | nil => rfl
  | cons a t => exact processLoop_obj lib (a :: t)

/-- C2: a falsy (`undefined`/`null`), non-array, or empty-array input makes
`processAttachments` return the empty string without failing. -/
theorem processAttachments_trivial_inputs (lib : PdfLib) :
    processAttachments lib AttachmentsInput.undef = Except.ok "" ∧
    processAttachments lib AttachmentsInput.nullv = Except.ok "" ∧
    processAttachments lib AttachmentsInput.nonArrayValue = Except.ok "" ∧
    processAttachments lib (AttachmentsInput.arr []) = Except.ok "" :=
  ⟨rfl, rfl, rfl, rfl⟩

/-- C3: when the data URL decodes and the document opens with pageCount
`doc.pages.length`, the output of `extractTextFromPDF` is exactly the
concatenation, in ascending page order, of one block per page, the block
of the page at index `i` being the separator line naming page `i + 1`
followed by that page's text fragments joined with single spaces; in
particular there are exactly `pageCount` such blocks. -/
theorem extractTextFromPDF_page_format (lib : PdfLib) (url : String)
    (bytes : List Nat) (doc : PdfDocument)
    (hb : decodeDataUrl url = Except.ok bytes)
    (hp : lib.parse bytes = Except.ok doc) :
    extractTextFromPDF lib url =
      String.join (doc.pages.enum.map (fun p =>
        "\n--- Page " ++ toString (p.1 + 1) ++ " ---\n" ++
          String.intercalate " " p.2 ++ "\n")) ∧
    (doc.pages.enum.map (fun p =>
        "\n--- Page " ++ toString (p.1 + 1) ++ " ---\n" ++
          String.intercalate " " p.2 ++ "\n")).length = doc.pages.length := by
  have hrun : extractRun lib url = Except.ok (extractLoop doc.pages) := by
    unfold extractRun
    rw [hb]
    show (match lib.parse bytes with
          | Except.error e => Except.error e
          | Except.ok pdf => Except.ok (extractLoop pdf.pages)) = _
    rw [hp]
  constructor
  · unfold extractTextFromPDF
    rw [hrun]
    exact extractLoop_eq_join doc.pages
  · simp

/-- Witness for C3 on a concrete two-page document. -/
theorem extractTextFromPDF_page_format_witness :
    extractTextFromPDF pdfLibDemo "data:application/pdf;base64,AAEC" =
      String.join (pdfDocDemo.pages.enum.map (fun p =>
        "\n--- Page " ++ toString (p.1 + 1) ++ " ---\n" ++
          String.intercalate " " p.2 ++ "\n")) ∧
    (pdfDocDemo.pages.enum.map (fun p =>
        "\n--- Page " ++ toString (p.1 + 1) ++ " ---\n" ++
          String.intercalate " " p.2 ++ "\n")).length = pdfDocDemo.pages.length :=
  extractTextFromPDF_page_format pdfLibDemo "data:application/pdf;base64,AAEC"
    [0, 1, 2] pdfDocDemo rfl rfl

/-- C1: an attachment whose data URL fails to decode, or whose bytes fail
to parse as a document, yields a placeholder string embedding the error
message instead of throwing, and `processAttachments` still includes the
content block of every other attachment around it. -/
theorem processAttachments_isolates_failures (lib : PdfLib) (pre post : List Attachment)
    (bad : Attachment) (badUrl msg : String)
    (hct : bad.contentType = some "application/pdf")
    (hurl : bad.url = some badUrl) (hne : badUrl ≠ "")
    (hfail : extractRun lib badUrl = Except.error msg) :
    extractTextFromPDF lib badUrl =
      "[Unable to extract PDF content. Error: " ++ msg ++ "]" ∧
    processAttachments lib
        (AttachmentsInput.arr ((pre ++ bad :: post).map AttachmentElem.obj)) =
      Except.ok (renderAll lib pre ++
        ("\n\nContent from PDF file \"" ++ jsStr bad.name ++ "\":\n" ++
          ("[Unable to extract PDF content. Error: " ++ msg ++ "]") ++ "\n\n") ++
        renderAll lib post) := by
  have hext : extractTextFromPDF lib badUrl =
      "[Unable to extract PDF content. Error: " ++ msg ++ "]" := by
    unfold extractTextFromPDF
    rw [hfail]
  have htr : truthy bad.url = true := by
    rw [hurl]
    simp [truthy]
    exact hne
  have hpiece : attachmentPiece lib bad =
      "\n\nContent from PDF file \"" ++ jsStr bad.name ++ "\":\n" ++
        ("[Unable to extract PDF content. Error: " ++ msg ++ "]") ++ "\n\n" := by
    unfold attachmentPiece
    rw [if_pos ⟨hct, htr⟩, hurl]
    show "\n\nContent from PDF file \"" ++ jsStr bad.name ++ "\":\n" ++
        extractTextFromPDF lib badUrl ++ "\n\n" = _
    rw [hext]
  refine ⟨hext, ?_⟩
  rw [processAttachments_arr, renderAll_append, renderAll_cons, hpiece,
    ← String.append_assoc]

/-- Witness for C1: a corrupted data URL between two well-formed
attachments. -/
theorem processAttachments_isolates_failures_witness :
    extractTextFromPDF pdfLibDemo "data:application/pdf;base64,%%%" =
      "[Unable to extract PDF content. Error: " ++
        "InvalidCharacterError: the string to be decoded is not correctly encoded" ++ "]" ∧
    processAttachments pdfLibDemo
        (AttachmentsInput.arr (([attachDemo] ++ attachBadDemo :: [attachDemo]).map AttachmentElem.obj)) =
      Except.ok (renderAll pdfLibDemo [attachDemo] ++
        ("\n\nContent from PDF file \"" ++ jsStr attachBadDemo.name ++ "\":\n" ++
          ("[Unable to extract PDF content. Error: " ++
            "InvalidCharacterError: the string to be decoded is not correctly encoded" ++ "]") ++ "\n\n") ++
        renderAll pdfLibDemo [attachDemo]) :=
  processAttachments_isolates_failures pdfLibDemo [attachDemo] [attachDemo]
    attachBadDemo "data:application/pdf;base64,%%%"
    "InvalidCharacterError: the string to be decoded is not correctly encoded"
    rfl rfl (by decide) rfl

/-- C4 counterexample: the claim says no exception escapes
`processAttachments` for any input whatsoever, but a list containing a
`null`/`undefined` element makes the `console.log` property access
`attachment.name` throw a TypeError that is not caught. -/
theorem processAttachments_throws_on_null :
    processAttachments pdfLibDemo (AttachmentsInput.arr [AttachmentElem.nullish]) =
      Except.error "TypeError: cannot read properties of null or undefined" :=
  rfl

/-- C4 (amended): no exception escapes `highlightCode` (or the total
function `detectLanguage`) for any input, and none escapes
`processAttachments` for any input whose array elements are all
non-nullish; only a `null`/`undefined` array element makes
`processAttachments` throw. -/
theorem no_exception_escapes (lib : PdfLib) (env : HljsEnv) (code : String)
    (languageOpt : Option String) (input : AttachmentsInput)
    (h : ∀ elems, input = AttachmentsInput.arr elems → AttachmentElem.nullish ∉ elems) :
    (processAttachments lib input).isOk = true ∧
    (highlightCode env code languageOpt).isOk = true := by
  refine ⟨?_, highlightCode_fallback_isOk env code languageOpt⟩
  cases input with
  | undef => rfl
  | nullv => rfl
  | nonArrayValue => rfl
  | arr elems =>
    cases elems with
    | nil => rfl
    | cons e rest => exact processLoop_ok lib (e :: rest) (h (e :: rest) rfl)

/-- Witness for C4 (amended) on a concrete mixed, nullish-free list. -/
theorem no_exception_escapes_witness :
    (processAttachments pdfLibDemo
        (AttachmentsInput.arr
          [AttachmentElem.obj attachDemo, AttachmentElem.primitive,
            AttachmentElem.obj attachBadDemo])).isOk = true ∧
    (highlightCode hljsEnvDemo "print(1)" none).isOk = true :=
  no_exception_escapes pdfLibDemo hljsEnvDemo "print(1)" none
    (AttachmentsInput.arr
      [AttachmentElem.obj attachDemo, AttachmentElem.primitive,
        AttachmentElem.obj attachBadDemo])
    (by intro elems he; injection he with h2; rw [← h2]; decide)

/-- C10: an attachment whose content type is `application/pdf` but whose
`url` is absent or falsy contributes nothing to the output: its block is
empty, and the result equals the result on the list with that attachment
removed, exactly as for an unrecognized content type. -/
theorem pdf_without_url_skipped (lib : PdfLib) (pre post : List Attachment)
    (a : Attachment) (hct : a.contentType = some "application/pdf")
    (hurl : truthy a.url = false) :
    attachmentPiece lib a = "" ∧
    processAttachments lib
        (AttachmentsInput.arr ((pre ++ a :: post).map AttachmentElem.obj)) =
      Except.ok (renderAll lib pre ++ renderAll lib post) ∧
    processAttachments lib
        (AttachmentsInput.arr ((pre ++ a :: post).map AttachmentElem.obj)) =
      processAttachments lib (AttachmentsInput.arr ((pre ++ post).map AttachmentElem.obj)) := by
  have hpiece : attachmentPiece lib a = "" := by
    unfold attachmentPiece
    rw [if_neg]
    intro hcond
    rw [hurl] at hcond
    cases hcond.2
  have hmain : processAttachments lib
      (AttachmentsInput.arr ((pre ++ a :: post).map AttachmentElem.obj)) =
      Except.ok (renderAll lib pre ++ renderAll lib post) := by
    rw [processAttachments_arr, renderAll_append, renderAll_cons, hpiece,
      String.empty_append]
  have hrem : processAttachments lib
      (AttachmentsInput.arr ((pre ++ post).map AttachmentElem.obj)) =
      Except.ok (renderAll lib pre ++ renderAll lib post) := by
    rw [processAttachments_arr, renderAll_append]
  exact ⟨hpiece, hmain, hmain.trans hrem.symm⟩

/-- Witness for C10: a PDF attachment with an empty `url` between two
well-formed attachments. -/
theorem pdf_without_url_skipped_witness :
    attachmentPiece pdfLibDemo ⟨some "nourl.pdf", some "application/pdf", some ""⟩ = "" ∧
    processAttachments pdfLibDemo
        (AttachmentsInput.arr
          (([attachDemo] ++ ⟨some "nourl.pdf", some "application/pdf", some ""⟩ :: [attachBadDemo]).map
            AttachmentElem.obj)) =
      Except.ok (renderAll pdfLibDemo [attachDemo] ++ renderAll pdfLibDemo [attachBadDemo]) ∧
    processAttachments pdfLibDemo
        (AttachmentsInput.arr
          (([attachDemo] ++ ⟨some "nourl.pdf", some "application/pdf", some ""⟩ :: [attachBadDemo]).map
            AttachmentElem.obj)) =
      processAttachments pdfLibDemo
        (AttachmentsInput.arr (([attachDemo] ++ [attachBadDemo]).map AttachmentElem.obj)) :=
  pdf_without_url_skipped pdfLibDemo [attachDemo] [attachBadDemo]
    ⟨some "nourl.pdf", some "application/pdf", some ""⟩ rfl rfl
